import Mathlib

/-!
Shallow embedding of the legal workflow orchestrator core
(`src/utils/workflow_models.py`, `src/workflows/workflow_steps.py`,
`src/workflows/workflow_engine.py`) together with theorems settling the
frozen claims about it.

Modelling conventions:
* Python values stored in `WorkflowMemory` are opaque to the engine except
  for the `is not None` test used by `_build_final_output`; they are
  embedded as the inductive `Value`, with `Value.none` playing Python's
  `None` and `Value.dict` playing dict-valued step outputs.
* Mutable state (`WorkflowMemory`, `WorkflowTrace`) is threaded
  explicitly; in-place mutation becomes functional update.
* A raised Python exception is `Except.error msg`. Functions that mutate
  state before an exception escapes return the mutated state alongside the
  message (`Except (String × _) _`), matching in-place mutation semantics.
* The impure executor `agent.execute(step_id, memory)` is embedded as an
  oracle `Nat → WorkflowMemory → Except String StepResult` indexed by the
  attempt number (successive impure calls may differ); the approval
  channel (`input()` loop) is an oracle `String → Except String Bool`
  returning the first valid yes/no answer, `.error` modelling a raised
  exception such as `EOFError`.
* Wall-clock fields (`started_at`, `completed_at`) and the random
  `workflow_id` are I/O effects irrelevant to every claim and are omitted;
  `confidence` and `duration_ms` floats are embedded as `Rat`.
-/

/-- Python runtime values as far as the engine observes them: `None`, plus
opaque scalar and dict payloads. -/
inductive Value where
  | none
  | bool (b : Bool)
  | int (n : Int)
  | str (s : String)
  | dict (entries : List (String × Value))
deriving Repr

/-- Python `val is not None` is a constructor test, not structural equality. -/
def Value.isNone : Value → Bool
  | Value.none => true
  | _ => false

/-- Python dict assignment `d[k] = v` on an insertion-ordered dict:
overwrite in place when present, append when absent. -/
def dictSet {α : Type} : List (String × α) → String → α → List (String × α)
  | [], k, v => [(k, v)]
  | (k', v') :: rest, k, v =>
    if k' = k then (k', v) :: rest else (k', v') :: dictSet rest k v

/-- Python `d.get(k)` / `k in d` lookup. -/
def dictGet? {α : Type} : List (String × α) → String → Option α
  | [], _ => Option.none
  | (k', v') :: rest, k => if k' = k then Option.some v' else dictGet? rest k

/-- `StepStatus` enum of `workflow_models.py`. -/
inductive StepStatus where
  | pending
  | running
  | completed
  | failed
  | skipped
  | waiting
  | cancelled
deriving DecidableEq, Repr

/-- `WorkflowStatus` enum of `workflow_models.py`. -/
inductive WorkflowStatus where
  | running
  | completed
  | failed
  | cancelled
  | waiting_human
deriving DecidableEq, Repr

/-- `WorkflowMemory`: the shared keyed store, a wrapped insertion-ordered
dict (`_store`). -/
structure WorkflowMemory where
  _store : List (String × Value) := []
deriving Repr

def WorkflowMemory.set (m : WorkflowMemory) (key : String) (value : Value) :
    WorkflowMemory :=
  ⟨dictSet m._store key value⟩

/-- `memory.get(key)` with Python's default `None`. -/
def WorkflowMemory.get (m : WorkflowMemory) (key : String) : Value :=
  (dictGet? m._store key).getD Value.none

/-- `memory.update(data)`: bulk dict merge, overwrite on conflict. -/
def WorkflowMemory.update (m : WorkflowMemory) (data : List (String × Value)) :
    WorkflowMemory :=
  data.foldl (fun acc kv => acc.set kv.1 kv.2) m

/-- `memory.snapshot()`: `copy.deepcopy(self._store)`; a deep copy is the
identity on immutable Lean values. -/
def WorkflowMemory.snapshot (m : WorkflowMemory) : List (String × Value) :=
  m._store

/-- `StepResult` dataclass: output of one executor attempt. -/
structure StepResult where
  step_id : String
  status : StepStatus
  output : Value := Value.dict []
  error : Option String := Option.none
  confidence : Rat := 1
  duration_ms : Rat := 0
  llm_calls : Nat := 0
  tokens_used : Nat := 0
  agent_name : String := ""
  retry_count : Nat := 0
deriving Repr

/-- `StepResult.succeeded` property. -/
def StepResult.succeeded (r : StepResult) : Bool :=
  decide (r.status = StepStatus.completed)

/-- `StepResult.failed` property. -/
def StepResult.failed (r : StepResult) : Bool :=
  decide (r.status = StepStatus.failed)

/-- `StepTrace` dataclass: the audit record of one step. -/
structure StepTrace where
  step_id : String
  agent_name : String
  status : StepStatus
  input_snapshot : List (String × Value)
  output : Value
  confidence : Rat
  duration_ms : Rat
  llm_calls : Nat
  tokens_used : Nat
  error : Option String
  retry_count : Nat := 0
  notes : String := ""
deriving Repr

/-- `WorkflowTrace` dataclass: run-level audit aggregate. -/
structure WorkflowTrace where
  workflow_name : String := ""
  status : WorkflowStatus := WorkflowStatus.running
  steps : List StepTrace := []
  human_gates_encountered : Nat := 0
  human_gates_approved : Nat := 0
  total_llm_calls : Nat := 0
  total_tokens_used : Nat := 0
  total_duration_ms : Rat := 0
  error : Option String := Option.none
deriving Repr

/-- `WorkflowTrace.add_step`: append the record and accumulate totals. -/
def WorkflowTrace.add_step (t : WorkflowTrace) (st : StepTrace) : WorkflowTrace :=
  { t with
    steps := t.steps ++ [st]
    total_llm_calls := t.total_llm_calls + st.llm_calls
    total_tokens_used := t.total_tokens_used + st.tokens_used
    total_duration_ms := t.total_duration_ms + st.duration_ms }

/-- `WorkflowTrace.complete(status, error)`. -/
def WorkflowTrace.complete (t : WorkflowTrace) (status : WorkflowStatus)
    (error : Option String) : WorkflowTrace :=
  { t with status := status, error := error }

/-- `WorkflowResult` dataclass (the random `workflow_id` omitted). -/
structure WorkflowResult where
  workflow_name : String
  status : WorkflowStatus
  memory : WorkflowMemory
  trace : WorkflowTrace
  final_output : List (String × Value) := []
  error : Option String := Option.none
deriving Repr

/-- `AgentStep` of `workflow_steps.py`. The `agent : BaseAgent` field is
embedded by its two observable components: `agent.name` (here
`agent_name`) and the impure `agent.execute(step_id, memory)` (here the
oracle `execute`, indexed by the attempt number of the call). A condition
is an optional predicate that may raise (`Except.error`). -/
structure AgentStep where
  step_id : String
  execute : Nat → WorkflowMemory → Except String StepResult
  agent_name : String := ""
  memory_key : String
  max_retries : Nat := 1
  required : Bool := true
  condition : Option (WorkflowMemory → Except String Bool) := Option.none

/-- `HumanGateStep` of `workflow_steps.py`; `prompt_fn` may raise. -/
structure HumanGateStep where
  step_id : String
  prompt_fn : WorkflowMemory → Except String String
  require_approval : Bool := true
  description : String := "Human review gate"
  condition : Option (WorkflowMemory → Except String Bool) := Option.none

/-- `AgentStep.should_run`: no condition means run; a raising condition is
caught and treated as run (fail-open). -/
def AgentStep.should_run (s : AgentStep) (memory : WorkflowMemory) : Bool :=
  match s.condition with
  | Option.none => true
  | Option.some c =>
    match c memory with
    | Except.ok b => b
    | Except.error _ => true

/-- `HumanGateStep.should_run`: same fail-open protocol. -/
def HumanGateStep.should_run (g : HumanGateStep) (memory : WorkflowMemory) : Bool :=
  match g.condition with
  | Option.none => true
  | Option.some c =>
    match c memory with
    | Except.ok b => b
    | Except.error _ => true

/-- The closed union `AgentStep | HumanGateStep` of a definition's step list. -/
inductive WStep where
  | agent (s : AgentStep)
  | gate (g : HumanGateStep)

def WStep.step_id : WStep → String
  | WStep.agent s => s.step_id
  | WStep.gate g => g.step_id

def WStep.should_run : WStep → WorkflowMemory → Bool
  | WStep.agent s, m => s.should_run m
  | WStep.gate g, m => g.should_run m

/-- `WorkflowDefinition` of `workflow_steps.py`. -/
structure WorkflowDefinition where
  name : String
  steps : List WStep
  description : String := ""
  version : String := "1.0"

/-- The SKIPPED record built by `WorkflowEngine._record_skipped` (timestamps
omitted): empty agent name, empty snapshot, confidence 1.0, zero cost. -/
def skippedStepTrace (step_id : String) : StepTrace :=
  { step_id := step_id
    agent_name := ""
    status := StepStatus.skipped
    input_snapshot := []
    output := Value.dict []
    confidence := 1
    duration_ms := 0
    llm_calls := 0
    tokens_used := 0
    error := Option.none
    retry_count := 0
    notes := "Condition evaluated to False" }

/-- `WorkflowEngine._record_skipped`. -/
def record_skipped (step_id : String) (trace : WorkflowTrace) : WorkflowTrace :=
  trace.add_step (skippedStepTrace step_id)

/-- The retry loop of `WorkflowEngine._execute_agent_step`:
`for attempt in range(step.max_retries)` with `last_result` threading.
Called with fuel `step.max_retries`; the fuel-0 base case is the
`max_retries = 0` corner where `last_result` stays `None` and reading
`last_result.status` raises `AttributeError`. Each attempt sets
`result.retry_count = attempt` and the loop breaks on the first
`result.succeeded`; a raising executor propagates. -/
def agentAttemptLoop (step : AgentStep) (memory : WorkflowMemory) :
    Nat → Nat → Except String StepResult
  | _, 0 => Except.error "AttributeError: NoneType object has no attribute status"
  | attempt, fuel + 1 =>
    match step.execute attempt memory with
    | Except.error e => Except.error e
    | Except.ok r0 =>
      let r := { r0 with retry_count := attempt }
      if r.succeeded then Except.ok r
      else if fuel = 0 then Except.ok r
      else agentAttemptLoop step memory (attempt + 1) fuel

/-- The loop of `_execute_agent_step` together with its on-success memory
write `memory.set(step.memory_key, result.output)`; the trace is appended
afterwards by `execute_agent_step`. -/
def agentOutcome (step : AgentStep) (memory : WorkflowMemory) :
    Except String (StepResult × WorkflowMemory) :=
  match agentAttemptLoop step memory 0 step.max_retries with
  | Except.error e => Except.error e
  | Except.ok last =>
    Except.ok (last, if last.succeeded then memory.set step.memory_key last.output else memory)

/-- The `StepTrace` literal built at the end of `_execute_agent_step` from
the pre-attempt snapshot and the last attempt's result. -/
def mkAgentStepTrace (step : AgentStep) (input_snapshot : List (String × Value))
    (last : StepResult) : StepTrace :=
  { step_id := step.step_id
    agent_name := step.agent_name
    status := last.status
    input_snapshot := input_snapshot
    output := last.output
    confidence := last.confidence
    duration_ms := last.duration_ms
    llm_calls := last.llm_calls
    tokens_used := last.tokens_used
    error := last.error
    retry_count := last.retry_count
    notes := "" }

/-- `WorkflowEngine._execute_agent_step`: snapshot once before attempt 0,
run the retry loop, write memory on success, append exactly one trace
record. On a raising executor nothing was appended and memory is
unchanged (success is the only write point), so the error carries the
incoming state. -/
def execute_agent_step (step : AgentStep) (memory : WorkflowMemory)
    (trace : WorkflowTrace) :
    Except (String × WorkflowMemory × WorkflowTrace)
      (StepResult × WorkflowMemory × WorkflowTrace) :=
  let input_snapshot := memory.snapshot
  match agentOutcome step memory with
  | Except.error e => Except.error (e, memory, trace)
  | Except.ok (last, memory') =>
    Except.ok (last, memory', trace.add_step (mkAgentStepTrace step input_snapshot last))

/-- The decision component of `WorkflowEngine._handle_human_gate`:
auto-approve when non-interactive or approval not required; otherwise
build the summary (degrading to a placeholder if `prompt_fn` raises) and
consult the approval channel. The `input()` re-ask loop is embedded as
the channel returning the first valid answer; `.error` is a raised
exception such as `EOFError`. -/
def gateDecision (step : HumanGateStep) (memory : WorkflowMemory)
    (interactive : Bool) (request : String → Except String Bool) :
    Except String Bool :=
  if !interactive || !step.require_approval then Except.ok true
  else
    let summary :=
      match step.prompt_fn memory with
      | Except.ok s => s
      | Except.error e => "[Error building summary: " ++ e ++ "]"
    request summary

/-- `WorkflowEngine._handle_human_gate`: increment `human_gates_encountered`
on entry; on approval (auto or interactive) also increment
`human_gates_approved`; a rejection increments nothing further. A raised
exception escapes after the encountered increment, so the error carries
the updated trace. -/
def handle_human_gate (step : HumanGateStep) (memory : WorkflowMemory)
    (trace : WorkflowTrace) (interactive : Bool)
    (request : String → Except String Bool) :
    Except (String × WorkflowTrace) (Bool × WorkflowTrace) :=
  let t := { trace with human_gates_encountered := trace.human_gates_encountered + 1 }
  match gateDecision step memory interactive request with
  | Except.error e => Except.error (e, t)
  | Except.ok true =>
    Except.ok (true, { t with human_gates_approved := t.human_gates_approved + 1 })
  | Except.ok false => Except.ok (false, t)

/-- The message `f"Required step '{step.step_id}' failed: {result.error}"`
(Python renders a `None` error as the text `None`; quotation marks are
dropped in the embedding). -/
def requiredFailMsg (step_id : String) (error : Option String) : String :=
  "Required step " ++ step_id ++ " failed: " ++
    (match error with | Option.some s => s | Option.none => "None")

/-- `WorkflowEngine._execute_workflow`: iterate the steps in declared
order; skip (recording a SKIPPED trace) when `should_run` is false;
dispatch gates (rejection finalizes CANCELLED) and agent steps (required
failure finalizes FAILED); after the loop finalize COMPLETED. Errors
carry the state mutated so far. -/
def execute_workflow (steps : List WStep) (memory : WorkflowMemory)
    (trace : WorkflowTrace) (interactive : Bool)
    (request : String → Except String Bool) :
    Except (String × WorkflowMemory × WorkflowTrace)
      (WorkflowStatus × WorkflowMemory × WorkflowTrace) :=
  match steps with
  | [] =>
    Except.ok (WorkflowStatus.completed, memory,
      trace.complete WorkflowStatus.completed Option.none)
  | stp :: rest =>
    if !stp.should_run memory then
      execute_workflow rest memory (record_skipped stp.step_id trace) interactive request
    else
      match stp with
      | WStep.gate g =>
        match handle_human_gate g memory trace interactive request with
        | Except.error (e, t') => Except.error (e, memory, t')
        | Except.ok (true, t') => execute_workflow rest memory t' interactive request
        | Except.ok (false, t') =>
          Except.ok (WorkflowStatus.cancelled, memory,
            t'.complete WorkflowStatus.cancelled Option.none)
      | WStep.agent a =>
        match execute_agent_step a memory trace with
        | Except.error (e, m', t') => Except.error (e, m', t')
        | Except.ok (result, m', t') =>
          if result.failed && a.required then
            Except.ok (WorkflowStatus.failed, m',
              t'.complete WorkflowStatus.failed
                (Option.some (requiredFailMsg a.step_id result.error)))
          else
            execute_workflow rest m' t' interactive request

/-- The fixed deliverable keys of `WorkflowEngine._build_final_output`. -/
def key_outputs : List String :=
  ["classification", "pesquisa", "analise", "minuta", "revisao"]

/-- The `for key in key_outputs` accumulation loop of `_build_final_output`. -/
def build_final_output_loop (memory : WorkflowMemory) :
    List String → List (String × Value) → List (String × Value)
  | [], output => output
  | key :: rest, output =>
    let val := memory.get key
    build_final_output_loop memory rest
      (if !val.isNone then dictSet output key val else output)

/-- `WorkflowEngine._build_final_output`. -/
def build_final_output (memory : WorkflowMemory) : List (String × Value) :=
  build_final_output_loop memory key_outputs []

/-- `WorkflowEngine`: the `_workflows` registry dict. -/
structure WorkflowEngine where
  _workflows : List (String × WorkflowDefinition) := []

/-- `WorkflowEngine.register`. -/
def WorkflowEngine.register (engine : WorkflowEngine) (workflow : WorkflowDefinition) :
    WorkflowEngine :=
  { engine with _workflows := dictSet engine._workflows workflow.name workflow }

/-- The fresh trace `WorkflowTrace(workflow_name=...)` built by `run`. -/
def WorkflowTrace.init (workflow_name : String) : WorkflowTrace :=
  { workflow_name := workflow_name }

/-- `WorkflowEngine.run`: raise (`Except.error`) for an unregistered name
before any state exists; otherwise seed memory with the initial input,
execute the steps catching any escaped exception as a FAILED completion,
and always return a `WorkflowResult` (whose `error` field is left at its
`None` default). -/
def WorkflowEngine.run (engine : WorkflowEngine) (workflow_name : String)
    (initial_input : List (String × Value)) (interactive : Bool)
    (request : String → Except String Bool) : Except String WorkflowResult :=
  match dictGet? engine._workflows workflow_name with
  | Option.none =>
    Except.error ("Workflow " ++ workflow_name ++ " not registered.")
  | Option.some workflow =>
    let memory := WorkflowMemory.update {} initial_input
    let trace := WorkflowTrace.init workflow_name
    let (status, memory, trace) :=
      match execute_workflow workflow.steps memory trace interactive request with
      | Except.ok (s, m, t) => (s, m, t)
      | Except.error (e, m, t) =>
        (WorkflowStatus.failed, m, t.complete WorkflowStatus.failed (Option.some e))
    let final_output := build_final_output memory
    Except.ok
      { workflow_name := workflow_name
        status := status
        memory := memory
        trace := trace
        final_output := final_output }

/-- Status/memory/trace triple produced by the body of `run` for a
registered workflow: the loop's own result, or the FAILED completion when
an exception escaped the loop. -/
def runOutcome (workflow : WorkflowDefinition) (workflow_name : String)
    (initial_input : List (String × Value)) (interactive : Bool)
    (request : String → Except String Bool) :
    WorkflowStatus × WorkflowMemory × WorkflowTrace :=
  match execute_workflow workflow.steps (WorkflowMemory.update {} initial_input)
      (WorkflowTrace.init workflow_name) interactive request with
  | Except.ok v => v
  | Except.error (e, m, t) =>
    (WorkflowStatus.failed, m, t.complete WorkflowStatus.failed (Option.some e))

/-! Concrete fixtures: mock agents, gates and engines used by the
counterexamples and witnesses below. -/

/-- Approval channel that always approves. -/
def alwaysApprove : String → Except String Bool := fun _ => Except.ok true

/-- Approval channel that always rejects. -/
def alwaysReject : String → Except String Bool := fun _ => Except.ok false

/-- Mock executor result: completes with confidence 1. -/
def okAgentResult : StepResult :=
  { step_id := "s1", status := StepStatus.completed, output := Value.str "out",
    confidence := 1, duration_ms := 10, llm_calls := 1, tokens_used := 100,
    agent_name := "MockAgent" }

def okAgentStep : AgentStep :=
  { step_id := "s1", execute := fun _ _ => Except.ok okAgentResult,
    agent_name := "MockAgent", memory_key := "classification" }

/-- Mock executor result that always fails. -/
def failAgentResult : StepResult :=
  { step_id := "f1", status := StepStatus.failed, error := Option.some "boom",
    agent_name := "FailAgent" }

def failAgentStep : AgentStep :=
  { step_id := "f1", execute := fun _ _ => Except.ok failAgentResult,
    agent_name := "FailAgent", memory_key := "analise" }

def basicGateStep : HumanGateStep :=
  { step_id := "gate1", prompt_fn := fun _ => Except.ok "summary" }

def basicWorkflow : WorkflowDefinition :=
  { name := "wf", steps := [WStep.agent okAgentStep] }

def basicEngine : WorkflowEngine := WorkflowEngine.register {} basicWorkflow

def emptyResult : WorkflowResult :=
  { workflow_name := "", status := WorkflowStatus.running, memory := {}, trace := {} }

/-- The result of the basic mock run, in closed form. -/
def basicRunResult : WorkflowResult :=
  ((basicEngine.run "wf" [] false alwaysApprove).toOption).getD emptyResult

/-- Executor reporting a raw confidence of 2, outside [0,1]. -/
def overConfidentResult : StepResult :=
  { step_id := "s1", status := StepStatus.completed, output := Value.str "out",
    confidence := 2, agent_name := "A" }

def overConfidentStep : AgentStep :=
  { step_id := "s1", execute := fun _ _ => Except.ok overConfidentResult,
    agent_name := "A", memory_key := "classification" }

def overConfidentEngine : WorkflowEngine :=
  WorkflowEngine.register {} { name := "wf", steps := [WStep.agent overConfidentStep] }

/-- Workflow consisting of a single gate step. -/
def gateOnlyEngine : WorkflowEngine :=
  WorkflowEngine.register {} { name := "wf2", steps := [WStep.gate basicGateStep] }

/-- A condition that always raises. -/
def errCondition : WorkflowMemory → Except String Bool := fun _ => Except.error "boom"

/-- A condition that evaluates to False. -/
def falseCondition : WorkflowMemory → Except String Bool := fun _ => Except.ok false

def condAgentStep : AgentStep :=
  { step_id := "c1", execute := fun _ _ => Except.ok okAgentResult,
    memory_key := "k", condition := Option.some errCondition }

def condGateStep : HumanGateStep :=
  { step_id := "c2", prompt_fn := fun _ => Except.ok "s",
    condition := Option.some errCondition }

def skipAgentStep : AgentStep :=
  { step_id := "skipme", execute := fun _ _ => Except.ok okAgentResult,
    memory_key := "k", condition := Option.some falseCondition }

/-- The clamp `max(0.0, min(1.0, confidence))` applied inside every
repository agent's `_parse_output` before the result reaches the engine
(`classifier_agent.py:113`, `researcher_agent.py:112`,
`analyst_agent.py:124`, `drafter_agent.py:152`, `reviewer_agent.py:146`). -/
def clamp01 (x : Rat) : Rat := max 0 (min 1 x)

/-! Shared lemmas about the embedded engine. -/

theorem succeeded_set_retry (r : StepResult) (n : Nat) :
    ({ r with retry_count := n } : StepResult).succeeded = r.succeeded := rfl

theorem failed_set_retry (r : StepResult) (n : Nat) :
    ({ r with retry_count := n } : StepResult).failed = r.failed := rfl

theorem failed_not_succeeded (r : StepResult) (h : r.failed = true) :
    r.succeeded = false := by
  unfold StepResult.failed at h
  unfold StepResult.succeeded
  simp only [decide_eq_true_eq] at h
  simp [h]

theorem dictGet?_dictSet {α : Type} (d : List (String × α)) (k k' : String) (v : α) :
    dictGet? (dictSet d k v) k' =
      if k = k' then Option.some v else dictGet? d k' := by
  induction d with
  | nil =>
    by_cases h : k = k' <;> simp [dictSet, dictGet?, h]
  | cons kv rest ih =>
    obtain ⟨a, b⟩ := kv
    by_cases hak : a = k
    · subst hak
      by_cases h : a = k' <;> simp [dictSet, dictGet?, h]
    · by_cases h : a = k'
      · subst h
        have : ¬ k = a := fun hc => hak hc.symm
        simp [dictSet, dictGet?, hak, this]
      · simp [dictSet, dictGet?, hak, h, ih]

/-- An `ok` result of the attempt loop is an executor result with its
`retry_count` overwritten by the attempt index. -/
theorem attemptLoop_ok_from_execute (step : AgentStep) (m : WorkflowMemory) :
    ∀ (fuel start : Nat) (last : StepResult),
      agentAttemptLoop step m start fuel = Except.ok last →
      ∃ j r0, step.execute j m = Except.ok r0 ∧
        last = { r0 with retry_count := j } := by
  intro fuel
  induction fuel with
  | zero => intro start last h; simp [agentAttemptLoop] at h
  | succ f ih =>
    intro start last h
    unfold agentAttemptLoop at h
    cases hx : step.execute start m with
    | error e => rw [hx] at h; exact absurd h (by simp)
    | ok r0 =>
      rw [hx] at h
      dsimp only at h
      by_cases hs : ({ r0 with retry_count := start } : StepResult).succeeded = true
      · rw [if_pos hs] at h
        exact ⟨start, r0, hx, ((Except.ok.injEq _ _).mp h).symm⟩
      · rw [if_neg hs] at h
        by_cases hf : f = 0
        · rw [if_pos hf] at h
          exact ⟨start, r0, hx, ((Except.ok.injEq _ _).mp h).symm⟩
        · rw [if_neg hf] at h
          exact ih (start + 1) last h

/-- The attempt loop stops at the first succeeding attempt and stamps its
index into `retry_count`. -/
theorem attemptLoop_first_success (step : AgentStep) (m : WorkflowMemory) :
    ∀ (k fuel start : Nat) (res : StepResult),
      k < fuel →
      (∀ i, i < k → ∃ ri, step.execute (start + i) m = Except.ok ri ∧
        ri.succeeded = false) →
      step.execute (start + k) m = Except.ok res →
      res.succeeded = true →
      agentAttemptLoop step m start fuel =
        Except.ok { res with retry_count := start + k } := by
  intro k
  induction k with
  | zero =>
    intro fuel start res hk _ hx hs
    obtain ⟨f, rfl⟩ := Nat.exists_eq_succ_of_ne_zero (Nat.pos_iff_ne_zero.mp hk)
    rw [Nat.add_zero] at hx ⊢
    unfold agentAttemptLoop
    rw [hx]
    dsimp only
    rw [if_pos (by rw [succeeded_set_retry]; exact hs)]
  | succ k ih =>
    intro fuel start res hk hfail hx hs
    obtain ⟨f, rfl⟩ := Nat.exists_eq_succ_of_ne_zero
      (Nat.pos_iff_ne_zero.mp (Nat.lt_of_le_of_lt (Nat.zero_le _) hk))
    obtain ⟨r0, hr0, hr0f⟩ := hfail 0 (Nat.succ_pos k)
    rw [Nat.add_zero] at hr0
    unfold agentAttemptLoop
    rw [hr0]
    dsimp only
    rw [if_neg (by rw [succeeded_set_retry, hr0f]; exact Bool.false_ne_true)]
    have hf : f ≠ 0 := by
      intro hc; subst hc
      exact absurd (Nat.lt_of_succ_lt_succ hk) (Nat.not_lt_zero k)
    rw [if_neg hf]
    have := ih f (start + 1) res (Nat.lt_of_succ_lt_succ hk)
      (fun i hi => by
        have := hfail (i + 1) (Nat.succ_lt_succ hi)
        rwa [show start + (i + 1) = start + 1 + i by omega] at this)
      (by rwa [show start + 1 + k = start + (k + 1) by omega]) hs
    rw [this, show start + 1 + k = start + (k + 1) by omega]

/-- When every attempt fails, the loop exhausts the fuel and returns the
last attempt's result with `retry_count` the last index. -/
theorem attemptLoop_exhausted (step : AgentStep) (m : WorkflowMemory) :
    ∀ (fuel start : Nat) (res : StepResult),
      1 ≤ fuel →
      (∀ i, i < fuel → ∃ ri, step.execute (start + i) m = Except.ok ri ∧
        ri.succeeded = false) →
      step.execute (start + (fuel - 1)) m = Except.ok res →
      agentAttemptLoop step m start fuel =
        Except.ok { res with retry_count := start + (fuel - 1) } := by
  intro fuel
  induction fuel with
  | zero => intro start res h; exact absurd h (by omega)
  | succ f ih =>
    intro start res _ hfail hx
    by_cases hf : f = 0
    · subst hf
      obtain ⟨r0, hr0, hr0f⟩ := hfail 0 (by omega)
      rw [Nat.add_zero] at hr0
      have hzz : (0 + 1 - 1 : Nat) = 0 := rfl
      rw [hzz, Nat.add_zero] at hx ⊢
      have hres : r0 = res := by rw [hr0] at hx; exact (Except.ok.injEq _ _).mp hx
      unfold agentAttemptLoop
      rw [hx]
      dsimp only
      rw [if_neg (by rw [succeeded_set_retry, ← hres, hr0f]; exact Bool.false_ne_true)]
      rw [if_pos rfl, Nat.add_zero]
    · obtain ⟨r0, hr0, hr0f⟩ := hfail 0 (by omega)
      rw [Nat.add_zero] at hr0
      unfold agentAttemptLoop
      rw [hr0]
      dsimp only
      rw [if_neg (by rw [succeeded_set_retry, hr0f]; exact Bool.false_ne_true)]
      rw [if_neg hf]
      have := ih (start + 1) res (by omega)
        (fun i hi => by
          have := hfail (i + 1) (by omega)
          rwa [show start + (i + 1) = start + 1 + i by omega] at this)
        (by rwa [show start + 1 + (f - 1) = start + (f + 1 - 1) by omega])
      rw [this, show start + 1 + (f - 1) = start + (f + 1 - 1) by omega]

/-- Unfolding of `agentOutcome` on an `ok` loop result. -/
theorem agentOutcome_ok (a : AgentStep) (m : WorkflowMemory) (res : StepResult)
    (m' : WorkflowMemory) (h : agentOutcome a m = Except.ok (res, m')) :
    agentAttemptLoop a m 0 a.max_retries = Except.ok res ∧
      m' = (if res.succeeded then m.set a.memory_key res.output else m) := by
  unfold agentOutcome at h
  cases hl : agentAttemptLoop a m 0 a.max_retries with
  | error e => rw [hl] at h; exact absurd h (by simp)
  | ok last =>
    rw [hl] at h
    dsimp only at h
    rw [Except.ok.injEq, Prod.mk.injEq] at h
    obtain ⟨h1, h2⟩ := h
    subst h1
    exact ⟨rfl, h2.symm⟩

/-- Unfolding of `execute_agent_step` on an `ok` outcome: the returned
trace is the incoming trace plus exactly one record built from the last
attempt. -/
theorem execute_agent_step_ok (a : AgentStep) (m : WorkflowMemory)
    (t : WorkflowTrace) (res : StepResult) (m' : WorkflowMemory) (t' : WorkflowTrace)
    (h : execute_agent_step a m t = Except.ok (res, m', t')) :
    agentOutcome a m = Except.ok (res, m') ∧
      t' = t.add_step (mkAgentStepTrace a m.snapshot res) := by
  unfold execute_agent_step at h
  cases hao : agentOutcome a m with
  | error e => rw [hao] at h; exact absurd h (by simp)
  | ok p =>
    obtain ⟨last, mem'⟩ := p
    rw [hao] at h
    dsimp only at h
    rw [Except.ok.injEq, Prod.mk.injEq] at h
    obtain ⟨h1, h2⟩ := h
    rw [Prod.mk.injEq] at h2
    obtain ⟨h2, h3⟩ := h2
    subst h1; subst h2
    exact ⟨rfl, h3.symm⟩

/-- An erring `execute_agent_step` leaves memory and trace untouched. -/
theorem execute_agent_step_error (a : AgentStep) (m : WorkflowMemory)
    (t : WorkflowTrace) (e : String) (m' : WorkflowMemory) (t' : WorkflowTrace)
    (h : execute_agent_step a m t = Except.error (e, m', t')) :
    m' = m ∧ t' = t := by
  unfold execute_agent_step at h
  cases hao : agentOutcome a m with
  | error e0 =>
    rw [hao] at h
    dsimp only at h
    rw [Except.error.injEq, Prod.mk.injEq] at h
    obtain ⟨_, h2⟩ := h
    rw [Prod.mk.injEq] at h2
    exact ⟨h2.1.symm, h2.2.symm⟩
  | ok p => rw [hao] at h; exact absurd h (by simp)

/-- Skip branch of the engine loop. -/
theorem execute_workflow_skip (stp : WStep) (rest : List WStep)
    (m : WorkflowMemory) (t : WorkflowTrace) (i : Bool)
    (r : String → Except String Bool) (h : stp.should_run m = false) :
    execute_workflow (stp :: rest) m t i r =
      execute_workflow rest m (record_skipped stp.step_id t) i r := by
  simp only [execute_workflow, h, Bool.not_false, if_true]

/-- Gate branch of the engine loop, by decision outcome. -/
theorem execute_workflow_gate (g : HumanGateStep) (rest : List WStep)
    (m : WorkflowMemory) (t : WorkflowTrace) (i : Bool)
    (r : String → Except String Bool) (h : (WStep.gate g).should_run m = true) :
    execute_workflow (WStep.gate g :: rest) m t i r =
      match handle_human_gate g m t i r with
      | Except.error (e, t') => Except.error (e, m, t')
      | Except.ok (true, t') => execute_workflow rest m t' i r
      | Except.ok (false, t') =>
        Except.ok (WorkflowStatus.cancelled, m,
          t'.complete WorkflowStatus.cancelled Option.none) := by
  have h' : (WStep.gate g).should_run m = true := h
  simp only [execute_workflow, h', Bool.not_true, Bool.false_eq_true, if_false]

/-- Agent branch of the engine loop, by step outcome. -/
theorem execute_workflow_agent (a : AgentStep) (rest : List WStep)
    (m : WorkflowMemory) (t : WorkflowTrace) (i : Bool)
    (r : String → Except String Bool) (h : (WStep.agent a).should_run m = true) :
    execute_workflow (WStep.agent a :: rest) m t i r =
      match execute_agent_step a m t with
      | Except.error (e, m', t') => Except.error (e, m', t')
      | Except.ok (result, m', t') =>
        if result.failed && a.required then
          Except.ok (WorkflowStatus.failed, m',
            t'.complete WorkflowStatus.failed
              (Option.some (requiredFailMsg a.step_id result.error)))
        else execute_workflow rest m' t' i r := by
  have h' : (WStep.agent a).should_run m = true := h
  simp only [execute_workflow, h', Bool.not_true, Bool.false_eq_true, if_false]

/-- Every `ok` status out of the step loop is terminal. -/
theorem execute_workflow_status_terminal :
    ∀ (steps : List WStep) (m : WorkflowMemory) (t : WorkflowTrace) (i : Bool)
      (r : String → Except String Bool) (s : WorkflowStatus)
      (m' : WorkflowMemory) (t' : WorkflowTrace),
      execute_workflow steps m t i r = Except.ok (s, m', t') →
      s = WorkflowStatus.completed ∨ s = WorkflowStatus.failed ∨
        s = WorkflowStatus.cancelled := by
  intro steps
  induction steps with
  | nil =>
    intro m t i r s m' t' h
    unfold execute_workflow at h
    rw [Except.ok.injEq, Prod.mk.injEq] at h
    exact Or.inl h.1.symm
  | cons stp rest ih =>
    intro m t i r s m' t' h
    by_cases hrun : stp.should_run m = true
    · cases stp with
      | gate g =>
        rw [execute_workflow_gate g rest m t i r hrun] at h
        cases hg : handle_human_gate g m t i r with
        | error p => obtain ⟨e, tg⟩ := p; rw [hg] at h; exact absurd h (by simp)
        | ok p =>
          obtain ⟨b, tg⟩ := p
          rw [hg] at h
          cases b with
          | true => exact ih m tg i r s m' t' h
          | false =>
            dsimp only at h
            rw [Except.ok.injEq, Prod.mk.injEq] at h
            exact Or.inr (Or.inr h.1.symm)
      | agent a =>
        rw [execute_workflow_agent a rest m t i r hrun] at h
        cases ha : execute_agent_step a m t with
        | error p =>
          obtain ⟨e, ma, ta⟩ := p; rw [ha] at h; exact absurd h (by simp)
        | ok p =>
          obtain ⟨result, ma, ta⟩ := p
          rw [ha] at h
          dsimp only at h
          by_cases hfr : (result.failed && a.required) = true
          · rw [if_pos hfr] at h
            rw [Except.ok.injEq, Prod.mk.injEq] at h
            exact Or.inr (Or.inl h.1.symm)
          · rw [if_neg hfr] at h
            exact ih ma ta i r s m' t' h
    · rw [execute_workflow_skip stp rest m t i r (by
        cases hx : stp.should_run m with
        | true => exact absurd hx hrun
        | false => rfl)] at h
      exact ih m (record_skipped stp.step_id t) i r s m' t' h

theorem run_unregistered (engine : WorkflowEngine) (workflow_name : String)
    (initial_input : List (String × Value)) (interactive : Bool)
    (request : String → Except String Bool)
    (h : dictGet? engine._workflows workflow_name = Option.none) :
    engine.run workflow_name initial_input interactive request =
      Except.error ("Workflow " ++ workflow_name ++ " not registered.") := by
  unfold WorkflowEngine.run
  rw [h]

theorem run_registered (engine : WorkflowEngine) (workflow_name : String)
    (workflow : WorkflowDefinition) (initial_input : List (String × Value))
    (interactive : Bool) (request : String → Except String Bool)
    (h : dictGet? engine._workflows workflow_name = Option.some workflow) :
    engine.run workflow_name initial_input interactive request =
      Except.ok
        { workflow_name := workflow_name
          status := (runOutcome workflow workflow_name initial_input interactive request).1
          memory := (runOutcome workflow workflow_name initial_input interactive request).2.1
          trace := (runOutcome workflow workflow_name initial_input interactive request).2.2
          final_output := build_final_output
            (runOutcome workflow workflow_name initial_input interactive request).2.1 } := by
  unfold WorkflowEngine.run runOutcome
  rw [h]
  dsimp only
  cases hw : execute_workflow workflow.steps (WorkflowMemory.update {} initial_input)
      (WorkflowTrace.init workflow_name) interactive request with
  | ok v => obtain ⟨s, m, t⟩ := v; rfl
  | error p => obtain ⟨e, m, t⟩ := p; rfl

/-! Claim theorems. -/

/-- C7: for every step (task or gate) and every memory state, a step with
no condition always runs, and if evaluating the condition raises, the
error is caught and `should_run` returns true (fail-open) — never "skip",
never a propagated error. -/
theorem should_run_fail_open (a : AgentStep) (g : HumanGateStep)
    (m : WorkflowMemory) (f : WorkflowMemory → Except String Bool) (e : String) :
    (a.condition = Option.none → a.should_run m = true) ∧
    (a.condition = Option.some f → f m = Except.error e → a.should_run m = true) ∧
    (g.condition = Option.none → g.should_run m = true) ∧
    (g.condition = Option.some f → f m = Except.error e → g.should_run m = true) := by
  refine ⟨fun h => ?_, fun h hf => ?_, fun h => ?_, fun h hf => ?_⟩
  · simp [AgentStep.should_run, h]
  · simp [AgentStep.should_run, h, hf]
  · simp [HumanGateStep.should_run, h]
  · simp [HumanGateStep.should_run, h, hf]

/-- C7 witness: a concrete agent step and gate step whose conditions raise
still report `should_run = true`. -/
theorem should_run_fail_open_witness :
    condAgentStep.should_run {} = true ∧ condGateStep.should_run {} = true :=
  ⟨(should_run_fail_open condAgentStep condGateStep {} errCondition "boom").2.1 rfl rfl,
   (should_run_fail_open condAgentStep condGateStep {} errCondition "boom").2.2.2 rfl rfl⟩

/-- C10: every `WorkflowResult` actually returned by `run` has `error =
None`; failure messages live only in the trace. -/
theorem run_result_error_field_none (engine : WorkflowEngine)
    (workflow_name : String) (initial_input : List (String × Value))
    (interactive : Bool) (request : String → Except String Bool)
    (res : WorkflowResult)
    (h : engine.run workflow_name initial_input interactive request = Except.ok res) :
    res.error = Option.none := by
  cases hreg : dictGet? engine._workflows workflow_name with
  | none =>
    rw [run_unregistered engine workflow_name initial_input interactive request hreg] at h
    exact absurd h (by simp)
  | some wf =>
    rw [run_registered engine workflow_name wf initial_input interactive request hreg] at h
    rw [Except.ok.injEq] at h
    rw [← h]

/-- C10 witness: the basic mock run returns a result whose `error` is `None`. -/
theorem run_result_error_field_none_witness : basicRunResult.error = Option.none :=
  run_result_error_field_none basicEngine "wf" [] false alwaysApprove basicRunResult rfl

/-- Lookup characterization of the `_build_final_output` loop. -/
theorem build_loop_lookup (m : WorkflowMemory) :
    ∀ (keys : List String) (acc : List (String × Value)) (k : String),
      dictGet? (build_final_output_loop m keys acc) k =
        if k ∈ keys ∧ (m.get k).isNone = false then Option.some (m.get k)
        else dictGet? acc k := by
  intro keys
  induction keys with
  | nil => intro acc k; simp [build_final_output_loop]
  | cons key rest ih =>
    intro acc k
    unfold build_final_output_loop
    rw [ih]
    by_cases hk : k = key
    · subst hk
      cases hn : (m.get k).isNone with
      | false =>
        by_cases hmem : k ∈ rest
        · simp [hmem, hn]
        · simp [hmem, hn, dictGet?_dictSet]
      | true =>
        by_cases hmem : k ∈ rest <;> simp [hmem, hn]
    · have hkk : ¬ key = k := fun hc => hk hc.symm
      cases hn : (m.get k).isNone with
      | false =>
        by_cases hmem : k ∈ rest
        · simp [hmem, hn, hk]
        · by_cases hkeyn : (m.get key).isNone = false
          · simp [hmem, hn, hk, hkeyn, dictGet?_dictSet, hkk]
          · simp [hmem, hn, hk, hkeyn]
      | true =>
        by_cases hkeyn : (m.get key).isNone = false
        · simp [hn, hk, hkeyn, dictGet?_dictSet, hkk]
        · simp [hn, hk, hkeyn]

/-- C9: `final_output` contains exactly those keys among
`["classification", "pesquisa", "analise", "minuta", "revisao"]` whose
terminal-memory value is present and not `None`; a key stored as `None`
or outside the list is omitted, and every returned run's `final_output`
is exactly `_build_final_output` of its terminal memory. -/
theorem final_output_selects_deliverables :
    (∀ (m : WorkflowMemory) (k : String),
       dictGet? (build_final_output m) k =
         if k ∈ key_outputs ∧ (m.get k).isNone = false then Option.some (m.get k)
         else Option.none) ∧
    (∀ (engine : WorkflowEngine) (workflow_name : String)
       (initial_input : List (String × Value)) (interactive : Bool)
       (request : String → Except String Bool) (res : WorkflowResult),
       engine.run workflow_name initial_input interactive request = Except.ok res →
       res.final_output = build_final_output res.memory) := by
  constructor
  · intro m k
    unfold build_final_output
    rw [build_loop_lookup]
    rfl
  · intro engine workflow_name initial_input interactive request res h
    cases hreg : dictGet? engine._workflows workflow_name with
    | none =>
      rw [run_unregistered engine workflow_name initial_input interactive request hreg] at h
      exact absurd h (by simp)
    | some wf =>
      rw [run_registered engine workflow_name wf initial_input interactive request hreg] at h
      rw [Except.ok.injEq] at h
      rw [← h]

/-- C9 witness: the basic mock run's `final_output` agrees with
`_build_final_output` of its terminal memory. -/
theorem final_output_selects_deliverables_witness :
    basicRunResult.final_output = build_final_output basicRunResult.memory :=
  final_output_selects_deliverables.2 basicEngine "wf" [] false alwaysApprove
    basicRunResult rfl

/-- C3: `run` raises only for an unregistered name (before any trace
exists); for a registered name it always returns a result, every returned
status is terminal (COMPLETED, FAILED or CANCELLED), and an exception
escaping the step loop finalizes the run as FAILED carrying the
exception's message in the trace. -/
theorem run_terminal_and_total (engine : WorkflowEngine) (workflow_name : String)
    (initial_input : List (String × Value)) (interactive : Bool)
    (request : String → Except String Bool) :
    (dictGet? engine._workflows workflow_name = Option.none →
       ∃ e, engine.run workflow_name initial_input interactive request =
         Except.error e) ∧
    (∀ workflow, dictGet? engine._workflows workflow_name = Option.some workflow →
       ∃ res, engine.run workflow_name initial_input interactive request =
         Except.ok res) ∧
    (∀ res, engine.run workflow_name initial_input interactive request =
         Except.ok res →
       res.status = WorkflowStatus.completed ∨ res.status = WorkflowStatus.failed ∨
         res.status = WorkflowStatus.cancelled) ∧
    (∀ workflow e m t,
       dictGet? engine._workflows workflow_name = Option.some workflow →
       execute_workflow workflow.steps (WorkflowMemory.update {} initial_input)
           (WorkflowTrace.init workflow_name) interactive request =
         Except.error (e, m, t) →
       ∃ res, engine.run workflow_name initial_input interactive request =
           Except.ok res ∧
         res.status = WorkflowStatus.failed ∧
         res.trace = t.complete WorkflowStatus.failed (Option.some e)) := by
  refine ⟨?_, ?_, ?_, ?_⟩
  · intro h
    exact ⟨_, run_unregistered engine workflow_name initial_input interactive request h⟩
  · intro workflow h
    exact ⟨_, run_registered engine workflow_name workflow initial_input interactive
      request h⟩
  · intro res h
    cases hreg : dictGet? engine._workflows workflow_name with
    | none =>
      rw [run_unregistered engine workflow_name initial_input interactive request hreg] at h
      exact absurd h (by simp)
    | some wf =>
      rw [run_registered engine workflow_name wf initial_input interactive request hreg] at h
      rw [Except.ok.injEq] at h
      rw [← h]
      show (runOutcome wf workflow_name initial_input interactive request).1 =
          WorkflowStatus.completed ∨ _ ∨ _
      unfold runOutcome
      cases hw : execute_workflow wf.steps (WorkflowMemory.update {} initial_input)
          (WorkflowTrace.init workflow_name) interactive request with
      | ok v =>
        obtain ⟨s, m, t⟩ := v
        exact execute_workflow_status_terminal wf.steps _ _ interactive request s m t hw
      | error p =>
        obtain ⟨e, m, t⟩ := p
        exact Or.inr (Or.inl rfl)
  · intro workflow e m t hreg hw
    refine ⟨_, run_registered engine workflow_name workflow initial_input interactive
      request hreg, ?_, ?_⟩
    · show (runOutcome workflow workflow_name initial_input interactive request).1 =
        WorkflowStatus.failed
      unfold runOutcome
      rw [hw]
    · show (runOutcome workflow workflow_name initial_input interactive request).2.2 =
        t.complete WorkflowStatus.failed (Option.some e)
      unfold runOutcome
      rw [hw]

/-- C3 witness: the basic mock run's status is one of the three terminal
statuses. -/
theorem run_terminal_and_total_witness :
    basicRunResult.status = WorkflowStatus.completed ∨
    basicRunResult.status = WorkflowStatus.failed ∨
    basicRunResult.status = WorkflowStatus.cancelled :=
  (run_terminal_and_total basicEngine "wf" [] false alwaysApprove).2.2.1
    basicRunResult rfl

/-- C4: a gate whose condition holds and whose decision is a rejection
finalizes the run immediately as CANCELLED with the memory exactly as it
was when the gate was reached (no rollback) and a trace containing no
record beyond those already present (in particular none for any step
positioned after the gate, whatever `rest` is); an approval continues
with the next step. -/
theorem gate_rejection_cancels (g : HumanGateStep) (rest : List WStep)
    (m : WorkflowMemory) (t : WorkflowTrace) (interactive : Bool)
    (request : String → Except String Bool)
    (hrun : (WStep.gate g).should_run m = true) :
    (gateDecision g m interactive request = Except.ok false →
       execute_workflow (WStep.gate g :: rest) m t interactive request =
         Except.ok (WorkflowStatus.cancelled, m,
           WorkflowTrace.complete
             { t with human_gates_encountered := t.human_gates_encountered + 1 }
             WorkflowStatus.cancelled Option.none) ∧
       (WorkflowTrace.complete
           { t with human_gates_encountered := t.human_gates_encountered + 1 }
           WorkflowStatus.cancelled Option.none).steps = t.steps) ∧
    (gateDecision g m interactive request = Except.ok true →
       execute_workflow (WStep.gate g :: rest) m t interactive request =
         execute_workflow rest m
           { t with human_gates_encountered := t.human_gates_encountered + 1
                    human_gates_approved := t.human_gates_approved + 1 }
           interactive request) := by
  constructor
  · intro hdec
    constructor
    · rw [execute_workflow_gate g rest m t interactive request hrun]
      unfold handle_human_gate
      rw [hdec]
    · rfl
  · intro hdec
    rw [execute_workflow_gate g rest m t interactive request hrun]
    unfold handle_human_gate
    rw [hdec]

/-- C4 witness: a concrete interactive gate whose channel rejects yields
the immediate CANCELLED completion, and the same gate under an approving
channel proceeds to the (empty) remainder. -/
theorem gate_rejection_cancels_witness :
    (execute_workflow [WStep.gate basicGateStep] {} (WorkflowTrace.init "w") true
        alwaysReject =
      Except.ok (WorkflowStatus.cancelled, {},
        WorkflowTrace.complete
          { WorkflowTrace.init "w" with
              human_gates_encountered :=
                (WorkflowTrace.init "w").human_gates_encountered + 1 }
          WorkflowStatus.cancelled Option.none)) ∧
    (execute_workflow [WStep.gate basicGateStep] {} (WorkflowTrace.init "w") true
        alwaysApprove =
      execute_workflow [] {}
        { WorkflowTrace.init "w" with
            human_gates_encountered :=
              (WorkflowTrace.init "w").human_gates_encountered + 1
            human_gates_approved :=
              (WorkflowTrace.init "w").human_gates_approved + 1 }
        true alwaysApprove) :=
  ⟨((gate_rejection_cancels basicGateStep [] {} (WorkflowTrace.init "w") true
      alwaysReject rfl).1 rfl).1,
   (gate_rejection_cancels basicGateStep [] {} (WorkflowTrace.init "w") true
      alwaysApprove rfl).2 rfl⟩

/-- C6: when a task step's attempts end FAILED, the engine leaves memory
untouched (the declared key stays unset unless someone else wrote it); if
the step is required the run finalizes immediately as FAILED, and if not
the loop simply proceeds to the next step from the same state. -/
theorem required_failure_escalation (a : AgentStep) (rest : List WStep)
    (m : WorkflowMemory) (t : WorkflowTrace) (interactive : Bool)
    (request : String → Except String Bool) (res : StepResult)
    (m' : WorkflowMemory) (t' : WorkflowTrace)
    (hrun : (WStep.agent a).should_run m = true)
    (hstep : execute_agent_step a m t = Except.ok (res, m', t'))
    (hfail : res.failed = true) :
    m' = m ∧
    (a.required = true →
       execute_workflow (WStep.agent a :: rest) m t interactive request =
         Except.ok (WorkflowStatus.failed, m',
           t'.complete WorkflowStatus.failed
             (Option.some (requiredFailMsg a.step_id res.error)))) ∧
    (a.required = false →
       execute_workflow (WStep.agent a :: rest) m t interactive request =
         execute_workflow rest m' t' interactive request) := by
  have hm : m' = m := by
    obtain ⟨hao, _⟩ := execute_agent_step_ok a m t res m' t' hstep
    obtain ⟨_, hmem⟩ := agentOutcome_ok a m res m' hao
    rw [failed_not_succeeded res hfail] at hmem
    simpa using hmem
  refine ⟨hm, ?_, ?_⟩
  · intro hreq
    rw [execute_workflow_agent a rest m t interactive request hrun, hstep]
    dsimp only
    rw [if_pos (by rw [hfail, hreq]; rfl)]
  · intro hreq
    rw [execute_workflow_agent a rest m t interactive request hrun, hstep]
    dsimp only
    rw [if_neg (by rw [hfail, hreq]; simp)]

/-- C6 witness: a required always-failing task step finalizes a concrete
run as FAILED with the last attempt's error in the completion message. -/
theorem required_failure_escalation_witness :
    execute_workflow [WStep.agent failAgentStep] {} (WorkflowTrace.init "w") false
        alwaysApprove =
      Except.ok (WorkflowStatus.failed, {},
        ((WorkflowTrace.init "w").add_step
            (mkAgentStepTrace failAgentStep [] failAgentResult)).complete
          WorkflowStatus.failed
          (Option.some (requiredFailMsg "f1" (Option.some "boom")))) :=
  (required_failure_escalation failAgentStep [] {} (WorkflowTrace.init "w") false
      alwaysApprove failAgentResult {}
      ((WorkflowTrace.init "w").add_step
        (mkAgentStepTrace failAgentStep [] failAgentResult))
      rfl rfl rfl).2.1 rfl

/-- C8: every gate whose condition evaluates true bumps the
gates-encountered counter by exactly one (even if the decision raises),
the gates-approved counter is bumped exactly on approval and never on
rejection, and a gate whose condition evaluates false is recorded as
skipped without touching either counter. -/
theorem gate_counter_protocol (g : HumanGateStep) (rest : List WStep)
    (m : WorkflowMemory) (t : WorkflowTrace) (interactive : Bool)
    (request : String → Except String Bool) :
    (∀ b t', handle_human_gate g m t interactive request = Except.ok (b, t') →
       t'.human_gates_encountered = t.human_gates_encountered + 1 ∧
       t'.human_gates_approved =
         t.human_gates_approved + (if b then 1 else 0)) ∧
    (∀ e t', handle_human_gate g m t interactive request = Except.error (e, t') →
       t'.human_gates_encountered = t.human_gates_encountered + 1 ∧
       t'.human_gates_approved = t.human_gates_approved) ∧
    ((WStep.gate g).should_run m = false →
       execute_workflow (WStep.gate g :: rest) m t interactive request =
         execute_workflow rest m (record_skipped g.step_id t) interactive request ∧
       (record_skipped g.step_id t).human_gates_encountered =
         t.human_gates_encountered ∧
       (record_skipped g.step_id t).human_gates_approved =
         t.human_gates_approved) := by
  refine ⟨?_, ?_, ?_⟩
  · intro b t' h
    unfold handle_human_gate at h
    cases hd : gateDecision g m interactive request with
    | error e => rw [hd] at h; exact absurd h (by simp)
    | ok bb =>
      rw [hd] at h
      cases bb with
      | true =>
        dsimp only at h
        rw [Except.ok.injEq, Prod.mk.injEq] at h
        obtain ⟨hb, ht⟩ := h
        subst hb; subst ht
        exact ⟨rfl, rfl⟩
      | false =>
        dsimp only at h
        rw [Except.ok.injEq, Prod.mk.injEq] at h
        obtain ⟨hb, ht⟩ := h
        subst hb; subst ht
        exact ⟨rfl, by simp⟩
  · intro e t' h
    unfold handle_human_gate at h
    cases hd : gateDecision g m interactive request with
    | ok bb => rw [hd] at h; cases bb <;> exact absurd h (by simp)
    | error e0 =>
      rw [hd] at h
      dsimp only at h
      rw [Except.error.injEq, Prod.mk.injEq] at h
      obtain ⟨_, ht⟩ := h
      subst ht
      exact ⟨rfl, rfl⟩
  · intro hrun
    exact ⟨execute_workflow_skip (WStep.gate g) rest m t interactive request hrun,
      rfl, rfl⟩

/-- C8 witness: a concrete auto-approved gate bumps both counters by one. -/
theorem gate_counter_protocol_witness :
    (WorkflowTrace.mk "w" WorkflowStatus.running [] 1 1 0 0 0
        Option.none).human_gates_encountered =
      (WorkflowTrace.init "w").human_gates_encountered + 1 ∧
    (WorkflowTrace.mk "w" WorkflowStatus.running [] 1 1 0 0 0
        Option.none).human_gates_approved =
      (WorkflowTrace.init "w").human_gates_approved + (if true then 1 else 0) :=
  (gate_counter_protocol basicGateStep [] {} (WorkflowTrace.init "w") false
      alwaysApprove).1 true
    (WorkflowTrace.mk "w" WorkflowStatus.running [] 1 1 0 0 0 Option.none) rfl

/-- C5: for a task step with `max_retries = N ≥ 1`, the retry loop stops
at the first COMPLETED attempt `k < N`, writes that outcome's output to
the step's declared memory key and records `retry_count = k`; when all
`N` attempts fail, memory is untouched and the recorded trace carries the
last attempt's result (status, error) with `retry_count = N - 1`. -/
theorem task_retry_protocol (a : AgentStep) (m : WorkflowMemory)
    (t : WorkflowTrace) (hN : 1 ≤ a.max_retries) :
    (∀ k res, k < a.max_retries →
       (∀ j, j < k → ∃ rj, a.execute j m = Except.ok rj ∧
         rj.succeeded = false) →
       a.execute k m = Except.ok res →
       res.succeeded = true →
       execute_agent_step a m t =
         Except.ok ({ res with retry_count := k },
           m.set a.memory_key res.output,
           t.add_step (mkAgentStepTrace a m.snapshot
             { res with retry_count := k }))) ∧
    (∀ res, (∀ j, j < a.max_retries → ∃ rj, a.execute j m = Except.ok rj ∧
          rj.failed = true) →
       a.execute (a.max_retries - 1) m = Except.ok res →
       execute_agent_step a m t =
         Except.ok ({ res with retry_count := a.max_retries - 1 }, m,
           t.add_step (mkAgentStepTrace a m.snapshot
             { res with retry_count := a.max_retries - 1 }))) := by
  constructor
  · intro k res hk hprev hx hs
    have hloop := attemptLoop_first_success a m k a.max_retries 0 res hk
      (fun i hi => by simpa using hprev i hi) (by simpa using hx) hs
    unfold execute_agent_step agentOutcome
    rw [hloop]
    dsimp only
    rw [if_pos (by rw [succeeded_set_retry]; exact hs)]
    simp [Nat.zero_add]
  · intro res hall hx
    have hfailsucc : ∀ j, j < a.max_retries →
        ∃ rj, a.execute j m = Except.ok rj ∧ rj.succeeded = false := by
      intro j hj
      obtain ⟨rj, hrj, hf⟩ := hall j hj
      exact ⟨rj, hrj, failed_not_succeeded rj hf⟩
    have hloop := attemptLoop_exhausted a m a.max_retries 0 res hN
      (fun i hi => by simpa using hfailsucc i hi) (by simpa using hx)
    have hres_f : res.succeeded = false := by
      obtain ⟨rj, hrj, hf⟩ := hall (a.max_retries - 1) (by omega)
      have hrr : rj = res := by rw [hrj] at hx; exact (Except.ok.injEq _ _).mp hx
      rw [← hrr]
      exact failed_not_succeeded rj hf
    unfold execute_agent_step agentOutcome
    rw [hloop]
    dsimp only
    rw [if_neg (by rw [succeeded_set_retry, hres_f]; exact Bool.false_ne_true)]
    simp [Nat.zero_add]

/-- C5 witness: a concrete one-attempt step succeeds on attempt 0, writes
its output at the declared key and records `retry_count = 0`. -/
theorem task_retry_protocol_witness :
    execute_agent_step okAgentStep {} (WorkflowTrace.init "w") =
      Except.ok ({ okAgentResult with retry_count := 0 },
        WorkflowMemory.set {} "classification" okAgentResult.output,
        (WorkflowTrace.init "w").add_step
          (mkAgentStepTrace okAgentStep []
            { okAgentResult with retry_count := 0 })) :=
  (task_retry_protocol okAgentStep {} (WorkflowTrace.init "w") (by decide)).1 0
    okAgentResult (by decide) (fun j hj => absurd hj (by omega)) rfl rfl

/-- Gate handling never appends a step record, whatever the decision. -/
theorem handle_human_gate_steps_unchanged (g : HumanGateStep) (m : WorkflowMemory)
    (t : WorkflowTrace) (interactive : Bool)
    (request : String → Except String Bool) :
    (∀ b t', handle_human_gate g m t interactive request = Except.ok (b, t') →
       t'.steps = t.steps) ∧
    (∀ e t', handle_human_gate g m t interactive request = Except.error (e, t') →
       t'.steps = t.steps) := by
  constructor
  · intro b t' h
    unfold handle_human_gate at h
    cases hd : gateDecision g m interactive request with
    | error e => rw [hd] at h; exact absurd h (by simp)
    | ok bb =>
      rw [hd] at h
      cases bb <;>
        (dsimp only at h
         rw [Except.ok.injEq, Prod.mk.injEq] at h
         obtain ⟨_, ht⟩ := h
         subst ht
         rfl)
  · intro e t' h
    unfold handle_human_gate at h
    cases hd : gateDecision g m interactive request with
    | ok bb => rw [hd] at h; cases bb <;> exact absurd h (by simp)
    | error e0 =>
      rw [hd] at h
      dsimp only at h
      rw [Except.error.injEq, Prod.mk.injEq] at h
      obtain ⟨_, ht⟩ := h
      subst ht
      rfl

/-- C1 counterexample: the engine stores the executor-reported confidence
unmodified, so a completed run can hold a trace confidence of 2 ∉ [0,1]. -/
theorem confidence_unclamped_counterexample :
    Except.map
        (fun res => (res.status, res.trace.steps.map StepTrace.confidence))
        (overConfidentEngine.run "wf" [] false alwaysApprove) =
      Except.ok (WorkflowStatus.completed, [(2 : Rat)]) ∧
    ¬ ((2 : Rat) ≤ 1) :=
  ⟨rfl, by norm_num⟩

/-- C1 (amended): the engine inherits trace confidences from the executor
unchanged, so whenever every executor outcome delivered to the engine has
confidence in [0,1] — as the repository's agents guarantee by applying
`max(0.0, min(1.0, ·))` in `_parse_output` — every stored trace record
(including SKIPPED records, which carry confidence 1) lies in [0,1]; and
the agents' clamp indeed always lands in [0,1]. -/
theorem trace_confidence_inherited :
    (∀ (steps : List WStep) (m : WorkflowMemory) (t : WorkflowTrace)
       (interactive : Bool) (request : String → Except String Bool),
       (∀ a, WStep.agent a ∈ steps → ∀ (j : Nat) (m0 : WorkflowMemory)
          (res : StepResult), a.execute j m0 = Except.ok res →
          0 ≤ res.confidence ∧ res.confidence ≤ 1) →
       (∀ st ∈ t.steps, 0 ≤ st.confidence ∧ st.confidence ≤ 1) →
       ((∀ s m' t', execute_workflow steps m t interactive request =
            Except.ok (s, m', t') →
          ∀ st ∈ t'.steps, 0 ≤ st.confidence ∧ st.confidence ≤ 1) ∧
        (∀ e m' t', execute_workflow steps m t interactive request =
            Except.error (e, m', t') →
          ∀ st ∈ t'.steps, 0 ≤ st.confidence ∧ st.confidence ≤ 1))) ∧
    (∀ x : Rat, 0 ≤ clamp01 x ∧ clamp01 x ≤ 1) := by
  constructor
  · intro steps
    induction steps with
    | nil =>
      intro m t i r _ hinv
      constructor
      · intro s m' t' h
        unfold execute_workflow at h
        rw [Except.ok.injEq, Prod.mk.injEq] at h
        obtain ⟨_, h2⟩ := h
        rw [Prod.mk.injEq] at h2
        rw [← h2.2]
        exact hinv
      · intro e m' t' h
        unfold execute_workflow at h
        exact absurd h (by simp)
    | cons stp rest ih =>
      intro m t i r hexec hinv
      have hexec' : ∀ a, WStep.agent a ∈ rest → ∀ (j : Nat) (m0 : WorkflowMemory)
          (res : StepResult), a.execute j m0 = Except.ok res →
          0 ≤ res.confidence ∧ res.confidence ≤ 1 :=
        fun a ha => hexec a (List.mem_cons_of_mem _ ha)
      by_cases hrun : stp.should_run m = true
      · cases stp with
        | gate g =>
          constructor
          · intro s m' t' h
            rw [execute_workflow_gate g rest m t i r hrun] at h
            cases hg : handle_human_gate g m t i r with
            | error p =>
              obtain ⟨e, tg⟩ := p; rw [hg] at h; exact absurd h (by simp)
            | ok p =>
              obtain ⟨b, tg⟩ := p
              rw [hg] at h
              have htg : tg.steps = t.steps :=
                (handle_human_gate_steps_unchanged g m t i r).1 b tg hg
              have hinv' : ∀ st ∈ tg.steps,
                  0 ≤ st.confidence ∧ st.confidence ≤ 1 := by
                rw [htg]; exact hinv
              cases b with
              | true => exact (ih m tg i r hexec' hinv').1 s m' t' h
              | false =>
                dsimp only at h
                rw [Except.ok.injEq, Prod.mk.injEq] at h
                obtain ⟨_, h2⟩ := h
                rw [Prod.mk.injEq] at h2
                rw [← h2.2]
                exact hinv'
          · intro e m' t' h
            rw [execute_workflow_gate g rest m t i r hrun] at h
            cases hg : handle_human_gate g m t i r with
            | error p =>
              obtain ⟨e0, tg⟩ := p
              rw [hg] at h
              dsimp only at h
              rw [Except.error.injEq, Prod.mk.injEq] at h
              obtain ⟨_, h2⟩ := h
              rw [Prod.mk.injEq] at h2
              have htg : tg.steps = t.steps :=
                (handle_human_gate_steps_unchanged g m t i r).2 e0 tg hg
              rw [← h2.2, htg]
              exact hinv
            | ok p =>
              obtain ⟨b, tg⟩ := p
              rw [hg] at h
              have htg : tg.steps = t.steps :=
                (handle_human_gate_steps_unchanged g m t i r).1 b tg hg
              have hinv' : ∀ st ∈ tg.steps,
                  0 ≤ st.confidence ∧ st.confidence ≤ 1 := by
                rw [htg]; exact hinv
              cases b with
              | true => exact (ih m tg i r hexec' hinv').2 e m' t' h
              | false => dsimp only at h; exact absurd h (by simp)
        | agent a =>
          have hrec : ∀ res ma ta,
              execute_agent_step a m t = Except.ok (res, ma, ta) →
              ∀ st ∈ ta.steps, 0 ≤ st.confidence ∧ st.confidence ≤ 1 := by
            intro res ma ta ha st hst
            obtain ⟨hao, hta⟩ := execute_agent_step_ok a m t res ma ta ha
            obtain ⟨hloop, _⟩ := agentOutcome_ok a m res ma hao
            obtain ⟨j, r0, hx, hres⟩ :=
              attemptLoop_ok_from_execute a m a.max_retries 0 res hloop
            have hconf : 0 ≤ res.confidence ∧ res.confidence ≤ 1 := by
              have hb := hexec a (List.mem_cons_self _ _) j m r0 hx
              rw [hres]
              exact hb
            rw [hta] at hst
            have hst' : st ∈ t.steps ++ [mkAgentStepTrace a m.snapshot res] := hst
            rcases List.mem_append.mp hst' with hmem | hmem
            · exact hinv st hmem
            · rw [List.mem_singleton] at hmem
              rw [hmem]
              exact hconf
          constructor
          · intro s m' t' h
            rw [execute_workflow_agent a rest m t i r hrun] at h
            cases ha : execute_agent_step a m t with
            | error p =>
              obtain ⟨e, ma, ta⟩ := p; rw [ha] at h; exact absurd h (by simp)
            | ok p =>
              obtain ⟨res, ma, ta⟩ := p
              rw [ha] at h
              dsimp only at h
              have hinv' := hrec res ma ta ha
              by_cases hfr : (res.failed && a.required) = true
              · rw [if_pos hfr] at h
                rw [Except.ok.injEq, Prod.mk.injEq] at h
                obtain ⟨_, h2⟩ := h
                rw [Prod.mk.injEq] at h2
                rw [← h2.2]
                exact hinv'
              · rw [if_neg hfr] at h
                exact (ih ma ta i r hexec' hinv').1 s m' t' h
          · intro e m' t' h
            rw [execute_workflow_agent a rest m t i r hrun] at h
            cases ha : execute_agent_step a m t with
            | error p =>
              obtain ⟨e0, ma, ta⟩ := p
              rw [ha] at h
              dsimp only at h
              rw [Except.error.injEq, Prod.mk.injEq] at h
              obtain ⟨_, h2⟩ := h
              rw [Prod.mk.injEq] at h2
              obtain ⟨_, hta⟩ := execute_agent_step_error a m t e0 ma ta ha
              rw [← h2.2, hta]
              exact hinv
            | ok p =>
              obtain ⟨res, ma, ta⟩ := p
              rw [ha] at h
              dsimp only at h
              have hinv' := hrec res ma ta ha
              by_cases hfr : (res.failed && a.required) = true
              · rw [if_pos hfr] at h; exact absurd h (by simp)
              · rw [if_neg hfr] at h
                exact (ih ma ta i r hexec' hinv').2 e m' t' h
      · have hrun' : stp.should_run m = false := by
          cases hx : stp.should_run m with
          | true => exact absurd hx hrun
          | false => rfl
        have hinv' : ∀ st ∈ (record_skipped stp.step_id t).steps,
            0 ≤ st.confidence ∧ st.confidence ≤ 1 := by
          intro st hst
          have hst' : st ∈ t.steps ++ [skippedStepTrace stp.step_id] := hst
          rcases List.mem_append.mp hst' with hmem | hmem
          · exact hinv st hmem
          · rw [List.mem_singleton] at hmem
            rw [hmem]
            have hc : (skippedStepTrace stp.step_id).confidence = 1 := rfl
            rw [hc]
            constructor <;> norm_num
        constructor
        · intro s m' t' h
          rw [execute_workflow_skip stp rest m t i r hrun'] at h
          exact (ih m (record_skipped stp.step_id t) i r hexec' hinv').1 s m' t' h
        · intro e m' t' h
          rw [execute_workflow_skip stp rest m t i r hrun'] at h
          exact (ih m (record_skipped stp.step_id t) i r hexec' hinv').2 e m' t' h
  · intro x
    unfold clamp01
    exact ⟨le_max_left 0 _, max_le (by norm_num) (min_le_left 1 x)⟩

/-- C1 witness: for the basic mock run, whose executor reports confidence
1 ∈ [0,1], the recorded trace record's confidence lies in [0,1]. -/
theorem trace_confidence_inherited_witness :
    0 ≤ (mkAgentStepTrace okAgentStep [] okAgentResult).confidence ∧
    (mkAgentStepTrace okAgentStep [] okAgentResult).confidence ≤ 1 := by
  refine (trace_confidence_inherited.1 [WStep.agent okAgentStep] {}
      (WorkflowTrace.init "wf") false alwaysApprove ?_ ?_).1
      WorkflowStatus.completed
      (WorkflowMemory.set {} "classification" okAgentResult.output)
      (((WorkflowTrace.init "wf").add_step
          (mkAgentStepTrace okAgentStep [] okAgentResult)).complete
        WorkflowStatus.completed Option.none)
      rfl (mkAgentStepTrace okAgentStep [] okAgentResult) ?_
  · intro a ha j m0 res h
    have ha' : a = okAgentStep := by
      have := List.mem_singleton.mp ha
      injection this
    subst ha'
    have h2 : Except.ok (ε := String) okAgentResult = Except.ok res := h
    rw [Except.ok.injEq] at h2
    subst h2
    exact ⟨by norm_num [okAgentResult], by norm_num [okAgentResult]⟩
  · intro st hst
    exact absurd hst (List.not_mem_nil st)
  · exact List.Mem.head _

/-- C2 counterexample: a run consisting of a single gate step whose
condition holds completes with the gate counted as encountered, yet the
trace holds zero step records — the gate contributed no record. -/
theorem gate_contributes_no_record_counterexample :
    Except.map
        (fun res => (res.status, res.trace.steps.length,
          res.trace.human_gates_encountered))
        (gateOnlyEngine.run "wf2" [] false alwaysApprove) =
      Except.ok (WorkflowStatus.completed, 0, 1) := rfl

/-- C2 (amended): per-step trace contributions — a step whose `should_run`
is false contributes exactly one SKIPPED record with zero-valued cost
fields, a task step that runs (and whose attempt loop returns)
contributes exactly one record, and a gate step that runs contributes no
record at all; so the trace has one record per processed task or skipped
step and none per processed gate. -/
theorem trace_record_contributions (stp : WStep) (rest : List WStep)
    (a : AgentStep) (g : HumanGateStep) (m : WorkflowMemory)
    (t : WorkflowTrace) (interactive : Bool)
    (request : String → Except String Bool) :
    (stp.should_run m = false →
       execute_workflow (stp :: rest) m t interactive request =
         execute_workflow rest m (record_skipped stp.step_id t)
           interactive request ∧
       (record_skipped stp.step_id t).steps =
         t.steps ++ [skippedStepTrace stp.step_id] ∧
       (skippedStepTrace stp.step_id).status = StepStatus.skipped ∧
       (skippedStepTrace stp.step_id).llm_calls = 0 ∧
       (skippedStepTrace stp.step_id).tokens_used = 0 ∧
       (skippedStepTrace stp.step_id).duration_ms = 0) ∧
    (∀ res m' t', execute_agent_step a m t = Except.ok (res, m', t') →
       t'.steps = t.steps ++ [mkAgentStepTrace a m.snapshot res]) ∧
    (∀ b t', handle_human_gate g m t interactive request = Except.ok (b, t') →
       t'.steps = t.steps) := by
  refine ⟨?_, ?_, ?_⟩
  · intro h
    exact ⟨execute_workflow_skip stp rest m t interactive request h,
      rfl, rfl, rfl, rfl, rfl⟩
  · intro res m' t' h
    rw [(execute_agent_step_ok a m t res m' t' h).2]
    rfl
  · intro b t' h
    exact (handle_human_gate_steps_unchanged g m t interactive request).1 b t' h

/-- C2 witness: a concrete false-condition step is diverted to the skip
recorder, and a concrete approved gate leaves the record list unchanged. -/
theorem trace_record_contributions_witness :
    (execute_workflow [WStep.agent skipAgentStep] {} (WorkflowTrace.init "w")
        false alwaysApprove =
      execute_workflow [] {} (record_skipped "skipme" (WorkflowTrace.init "w"))
        false alwaysApprove) ∧
    (WorkflowTrace.mk "w" WorkflowStatus.running [] 1 1 0 0 0
        Option.none).steps = (WorkflowTrace.init "w").steps :=
  ⟨((trace_record_contributions (WStep.agent skipAgentStep) [] okAgentStep
      basicGateStep {} (WorkflowTrace.init "w") false alwaysApprove).1 rfl).1,
   (trace_record_contributions (WStep.agent skipAgentStep) [] okAgentStep
      basicGateStep {} (WorkflowTrace.init "w") false alwaysApprove).2.2 true
     (WorkflowTrace.mk "w" WorkflowStatus.running [] 1 1 0 0 0 Option.none) rfl⟩
